import Mathlib

/-!
Verification development for the cursor-home repository (Linux platform).

The definitions below are a shallow embedding of the Rust sources:
* `src/platforms/linux/src/services/shake_detector.rs`
* `src/platforms/linux/src/services/synergy_monitor.rs`
* `src/platforms/linux/src/ui/x11_overlay.rs`
* `src/platforms/linux/src/ui/highlight_overlay.rs`
* `src/platforms/linux/src/models/cursor_style.rs`

Machine floating point (`f64`) is modelled by the rationals `ℚ`, monotonic
instants by rational numbers of seconds, strings by `String` / `List Char`.
Rust casts (`as u32`, `as u64`) are modelled with explicit truncation and
saturation.
-/

set_option autoImplicit false

/-- Truncation towards zero, as Rust `f64` to integer casts truncate. -/
def rtrunc (q : ℚ) : ℤ :=
  if 0 ≤ q then ⌊q⌋ else ⌈q⌉

/-- Saturating cast to `u32` (`as u32` on a finite `f64`). -/
def asU32 (q : ℚ) : ℕ :=
  min (rtrunc q).toNat (2 ^ 32 - 1)

/-- Saturating cast to `u64` (`as u64` on a finite `f64`). -/
def asU64 (q : ℚ) : ℕ :=
  min (rtrunc q).toNat (2 ^ 64 - 1)

/-- Rust `%` on floats: remainder with the sign of the dividend,
`a - b * trunc (a / b)`. -/
def rustRem (a b : ℚ) : ℚ :=
  a - b * rtrunc (a / b)

/-- Rust `f64::clamp self lo hi` for `lo ≤ hi`. -/
def rustClamp (x lo hi : ℚ) : ℚ :=
  min (max x lo) hi

/-! ## Shake detector (shake_detector.rs) -/

/-- A recorded mouse position with timestamp (`PositionSample`), time in
seconds on a monotonic clock. -/
structure PositionSample where
  x : ℚ
  y : ℚ
  time : ℚ
  deriving Repr, DecidableEq

/-- State of `ShakeDetector`.  The `on_shake` callback is modelled by the
boolean result of `recordPosition`. -/
structure ShakeDetector where
  samples : List PositionSample
  sensitivity : ℚ
  isRunning : Bool
  windowDuration : ℚ
  minDirectionChanges : ℕ
  deriving Repr, DecidableEq

/-- Constructor `ShakeDetector::new` (shake_detector.rs lines 35-44). -/
def ShakeDetector.new (sensitivity : ℚ) : ShakeDetector where
  samples := []
  sensitivity := rustClamp sensitivity 0 1
  isRunning := false
  windowDuration := 2 / 5
  minDirectionChanges := 4

/-- Setter `ShakeDetector::set_sensitivity` (lines 52-54). -/
def ShakeDetector.setSensitivity (d : ShakeDetector) (sensitivity : ℚ) : ShakeDetector :=
  { d with sensitivity := rustClamp sensitivity 0 1 }

/-- Method `ShakeDetector::start` (lines 57-67); always returns `Ok`. -/
def ShakeDetector.start (d : ShakeDetector) : ShakeDetector :=
  if d.isRunning then d else { d with isRunning := true, samples := [] }

/-- Method `ShakeDetector::stop` (lines 70-73). -/
def ShakeDetector.stop (d : ShakeDetector) : ShakeDetector :=
  { d with isRunning := false, samples := [] }

/-- Consecutive horizontal deltas `dx_i = x_i - x_{i-1}` of a list of
x coordinates (the loop of `detect_shake`, lines 116-131). -/
def deltas : List ℚ → List ℚ
  | a :: b :: rest => (b - a) :: deltas (b :: rest)
  | _ => []

/-- Number of strict sign flips between consecutive deltas
(`direction_changes` in `detect_shake`). -/
def countFlips : List ℚ → ℕ
  | a :: b :: rest =>
      (if (b > 0 ∧ a < 0) ∨ (b < 0 ∧ a > 0) then 1 else 0) + countFlips (b :: rest)
  | _ => 0

/-- The detection threshold `max_threshold - sensitivity * (max_threshold -
min_threshold)` (lines 148-150). -/
def shakeThreshold (d : ShakeDetector) : ℚ :=
  900 - d.sensitivity * (900 - 300)

/-- Method `ShakeDetector::detect_shake` (lines 107-153).  The final
expression `direction_changes >= min && velocity > threshold` is modelled as
the corresponding conjunction. -/
def detectShake (d : ShakeDetector) : Bool :=
  if d.samples.length < 4 then false
  else
    let xs := d.samples.map (·.x)
    let dxs := deltas xs
    let directionChanges := countFlips dxs
    let totalDistance := (dxs.map (fun q => |q|)).sum
    let timeSpan := ((d.samples.map (·.time)).getLast?.getD 0) -
      ((d.samples.map (·.time)).head?.getD 0)
    if timeSpan ≤ 0 then false
    else if d.minDirectionChanges ≤ directionChanges ∧
        totalDistance / timeSpan > shakeThreshold d then true
    else false

/-- Method `ShakeDetector::record_position` (lines 78-104), with the ambient
`Instant::now()` passed explicitly as `now`.  The returned boolean is true
exactly when the `on_shake` callback fires on this call. -/
def recordPosition (d : ShakeDetector) (x y now : ℚ) : ShakeDetector × Bool :=
  if !d.isRunning then (d, false)
  else
    let pushed := d.samples ++ [⟨x, y, now⟩]
    let evicted := pushed.dropWhile (fun s => now - s.time > d.windowDuration)
    let d1 := { d with samples := evicted }
    if detectShake d1 then ({ d1 with samples := [] }, true)
    else (d1, false)

/-- Feed a list of `(x, y, now)` triples through `record_position`,
collecting each call's detection result. -/
def feed : ShakeDetector → List (ℚ × ℚ × ℚ) → ShakeDetector × List Bool
  | d, [] => (d, [])
  | d, p :: ps =>
      let r := recordPosition d p.1 p.2.1 p.2.2
      let rest := feed r.1 ps
      (rest.1, r.2 :: rest.2)

/-- Operations a caller can perform on a `ShakeDetector` after construction. -/
inductive DetectorOp where
  | setSensitivity (s : ℚ)
  | start
  | stop
  | record (x y now : ℚ)

/-- Apply one operation. -/
def applyOp (d : ShakeDetector) : DetectorOp → ShakeDetector
  | .setSensitivity s => d.setSensitivity s
  | .start => d.start
  | .stop => d.stop
  | .record x y now => (recordPosition d x y now).1

/-- Apply a sequence of operations. -/
def runOps (d : ShakeDetector) (ops : List DetectorOp) : ShakeDetector :=
  ops.foldl applyOp d


/-! ## Animation styles and easing (cursor_style.rs) -/

/-- Enum `AnimationType` (cursor_style.rs lines 128-135). -/
inductive AnimationType where
  | none
  | pulse
  | ripple
  | fade
  | scale
  deriving Repr, DecidableEq

/-- Enum `Easing` (cursor_style.rs lines 162-168). -/
inductive Easing where
  | linear
  | easeIn
  | easeOut
  | easeInOut
  deriving Repr, DecidableEq

/-- Method `Easing::apply` (cursor_style.rs lines 172-185). -/
def Easing.apply (e : Easing) (t : ℚ) : ℚ :=
  match e with
  | .linear => t
  | .easeIn => t * t
  | .easeOut => 1 - (1 - t) * (1 - t)
  | .easeInOut => if t < 1 / 2 then 2 * t * t else 1 - (-2 * t + 2) ^ 2 / 2

/-- Struct `AnimationStyle` (cursor_style.rs lines 190-196). -/
structure AnimationStyle where
  animationType : AnimationType
  duration : ℚ
  easing : Easing
  repeatCount : ℕ
  autoReverse : Bool
  deriving Repr, DecidableEq

/-- The `Default` impl for `AnimationStyle` (cursor_style.rs lines 198-208). -/
def AnimationStyle.default : AnimationStyle where
  animationType := .pulse
  duration := 4 / 5
  easing := .easeInOut
  repeatCount := 3
  autoReverse := true

/-! ## X11 overlay animation clock (x11_overlay.rs) -/

/-- Method `X11Overlay::calculate_animation_progress` (x11_overlay.rs lines
185-204).  The `(elapsed / style.duration) as u32` cast truncates and
saturates. -/
def x11CalculateAnimationProgress (elapsed : ℚ) (style : AnimationStyle) : ℚ :=
  if style.duration ≤ 0 then 1
  else
    let rawProgress := rustRem elapsed style.duration / style.duration
    let progress :=
      if style.autoReverse then
        let cycle := asU32 (elapsed / style.duration)
        if cycle % 2 = 1 then 1 - rawProgress else rawProgress
      else rawProgress
    style.easing.apply progress

/-! ## GTK highlight overlay (highlight_overlay.rs) -/

/-- Struct `AnimationState` (highlight_overlay.rs lines 28-33); `start_time`
is `Option` of an instant in seconds. -/
structure AnimationState where
  style : AnimationStyle
  startTime : Option ℚ
  progress : ℚ
  isReversing : Bool
  deriving Repr, DecidableEq

/-- The `Default` impl for `AnimationState` (highlight_overlay.rs lines
35-44). -/
def AnimationState.default : AnimationState where
  style := AnimationStyle.default
  startTime := Option.none
  progress := 0
  isReversing := false

/-- One animation-state update of the GTK overlay's tick closure
(highlight_overlay.rs lines 229-258), at instant `now`. -/
def gtkUpdateAnimation (now : ℚ) (anim : AnimationState) : AnimationState :=
  match anim.startTime with
  | Option.none => anim
  | Option.some startTime =>
      let elapsed := now - startTime
      let cycleDuration := anim.style.duration
      if cycleDuration > 0 then
        let rawProgress := rustRem elapsed cycleDuration / cycleDuration
        let anim1 : AnimationState :=
          if anim.style.autoReverse then
            let cycle := asU32 (elapsed / cycleDuration)
            { anim with
              isReversing := cycle % 2 = 1,
              progress := if cycle % 2 = 1 then 1 - rawProgress else rawProgress }
          else { anim with progress := rawProgress }
        let anim2 : AnimationState := { anim1 with progress := anim1.style.easing.apply anim1.progress }
        let cycle := asU32 (elapsed / cycleDuration)
        if anim2.style.repeatCount > 0 ∧ cycle ≥ anim2.style.repeatCount then
          { anim2 with progress := 1 }
        else anim2
      else anim

/-- State of `HighlightOverlay` relevant to visibility and animation
(highlight_overlay.rs lines 19-26); the drawing-only fields (`style`,
`drawing_area`, the GTK window) are outside the model. -/
structure OverlayState where
  isVisible : Bool
  anim : AnimationState
  cursorPosition : ℚ × ℚ
  deriving Repr, DecidableEq

/-- The `glib::timeout_add_local` loop spawned by `start_animation_loop`
(highlight_overlay.rs lines 200-263): its captured `start` instant and
`duration_ms = (duration * 1000.0) as u64`. -/
structure TimeoutLoop where
  start : ℚ
  durationMs : ℕ
  deriving Repr, DecidableEq

/-- Method `HighlightOverlay::show` (highlight_overlay.rs lines 153-182) at
instant `now`: resets the animation state, makes the overlay visible and
spawns a fresh timeout loop.  Any previously spawned loop keeps running. -/
def overlayShow (now x y : ℚ) (animationStyle : AnimationStyle) (duration : ℚ)
    (_st : OverlayState) : OverlayState × TimeoutLoop :=
  ({ isVisible := true,
     cursorPosition := (x, y),
     anim := { style := animationStyle, startTime := Option.some now,
               progress := 0, isReversing := false } },
   { start := now, durationMs := asU64 (duration * 1000) })

/-- One invocation of the tick closure of a given timeout loop
(highlight_overlay.rs lines 210-262) at instant `now`.  Returns the new
overlay state and `true` for `ControlFlow::Continue`, `false` for
`ControlFlow::Break`.  `start.elapsed().as_millis()` is the floor of the
elapsed milliseconds. -/
def animationTick (lp : TimeoutLoop) (now : ℚ) (st : OverlayState) :
    OverlayState × Bool :=
  if !st.isVisible then (st, false)
  else if lp.durationMs ≤ min (⌊(now - lp.start) * 1000⌋.toNat) (2 ^ 64 - 1) then
    ({ st with isVisible := false }, false)
  else
    ({ st with anim := gtkUpdateAnimation now st.anim }, true)


/-! ## Synergy monitor (synergy_monitor.rs) -/

/-- Enum `TransitionType` (synergy_monitor.rs lines 21-27). -/
inductive TransitionType where
  | left
  | returned
  deriving Repr, DecidableEq

/-- Struct `CursorTransition` (synergy_monitor.rs lines 15-19). -/
structure CursorTransition where
  transitionType : TransitionType
  screenName : String
  deriving Repr, DecidableEq

/-- Character class `[\w\-\.]` of the extraction regexes (ASCII). -/
def nameChar (c : Char) : Bool :=
  c.isAlphanum || c = '_' || c = '-' || c = '.'

/-- Substring test, as Rust `str::contains` with a literal pattern. -/
def containsSub (needle : List Char) : List Char → Bool
  | [] => needle.isEmpty
  | c :: rest => needle.isPrefixOf (c :: rest) || containsSub needle rest

/-- Leftmost match of a regex of shape `lit([\w\-\.]+)`: find the first
position where the literal occurs immediately followed by at least one name
character, and capture the maximal run of name characters. -/
def findLitCapture (lit : List Char) : List Char → Option (List Char)
  | [] => Option.none
  | c :: rest =>
      if lit.isPrefixOf (c :: rest) then
        let cap := ((c :: rest).drop lit.length).takeWhile nameChar
        if cap.isEmpty then findLitCapture lit rest else Option.some cap
      else findLitCapture lit rest

/-- Leftmost match of a regex of shape `lit1 .*? lit2([\w\-\.]+)` on a
newline-free line: the first occurrence of `lit1` after which `lit2`
followed by a name character occurs; the lazy gap makes the `lit2`
occurrence the earliest one, and the capture is the maximal name-character
run after it. -/
def findLazyCapture (lit1 lit2 : List Char) : List Char → Option (List Char)
  | [] => Option.none
  | c :: rest =>
      if lit1.isPrefixOf (c :: rest) then
        match findLitCapture lit2 ((c :: rest).drop lit1.length) with
        | Option.some cap => Option.some cap
        | Option.none => findLazyCapture lit1 lit2 rest
      else findLazyCapture lit1 lit2 rest

/-- Method `SynergyMonitor::extract_screen_name` (synergy_monitor.rs lines
219-249): the ordered pattern lists per direction, first match wins. -/
def extractScreenName (line : List Char) (leaving : Bool) : Option (List Char) :=
  if leaving then
    match findLitCapture "switching to ".toList line with
    | Option.some cap => Option.some cap
    | Option.none =>
        match findLitCapture "switch to ".toList line with
        | Option.some cap => Option.some cap
        | Option.none =>
            match findLazyCapture "leaving ".toList "to ".toList line with
            | Option.some cap => Option.some cap
            | Option.none => findLitCapture "-> ".toList line
  else
    match findLitCapture "switching from ".toList line with
    | Option.some cap => Option.some cap
    | Option.none =>
        match findLitCapture "switch from ".toList line with
        | Option.some cap => Option.some cap
        | Option.none =>
            match findLazyCapture "entering ".toList "from ".toList line with
            | Option.some cap => Option.some cap
            | Option.none => findLitCapture "<- ".toList line

/-- Method `SynergyMonitor::parse_transition_event` (synergy_monitor.rs
lines 187-216).  Classification runs on the lowercased line, extraction on
the original line. -/
def parseTransitionEvent (line : List Char) : Option CursorTransition :=
  let lower := line.map Char.toLower
  if containsSub "leaving".toList lower || containsSub "switch to".toList lower ||
      containsSub "switching to".toList lower then
    Option.some
      { transitionType := TransitionType.left,
        screenName := String.mk ((extractScreenName line true).getD "remote".toList) }
  else if containsSub "entering".toList lower || containsSub "switch from".toList lower ||
      containsSub "switching from".toList lower then
    Option.some
      { transitionType := TransitionType.returned,
        screenName := String.mk ((extractScreenName line false).getD "remote".toList) }
  else Option.none

/-- Split a character list at newline characters; the final element is the
segment after the last newline (possibly empty). -/
def splitNL : List Char → List (List Char)
  | [] => [[]]
  | '\n' :: rest => [] :: splitNL rest
  | c :: rest =>
      match splitNL rest with
      | [] => [[c]]
      | l :: ls => (c :: l) :: ls

/-- Strip one trailing carriage return, as `BufRead::lines` does for
newline-terminated lines. -/
def stripCR (l : List Char) : List Char :=
  if l.getLast? = Option.some '\r' then l.dropLast else l

/-- The semantics of `BufReader::lines` on the full remaining content:
newline-terminated segments with `\r\n` collapsed, plus a final
unterminated segment when nonempty. -/
def bufLines (content : List Char) : List (List Char) :=
  let parts := splitNL content
  parts.dropLast.map stripCR ++
    (if (parts.getLast?.getD []).isEmpty then [] else [parts.getLast?.getD []])

/-- Method `SynergyMonitor::process_new_entries` (synergy_monitor.rs lines
156-184): the file content is `content` (bytes modelled as characters),
`lastPosition` the recorded offset.  Returns the new offset together with
the emitted transitions (`Option.none` when the read is skipped or no line
parses). -/
def processNewEntries (content : List Char) (lastPosition : ℕ) :
    ℕ × Option (List CursorTransition) :=
  let currentSize := content.length
  if currentSize ≤ lastPosition then (lastPosition, Option.none)
  else
    let transitions := (bufLines (content.drop lastPosition)).filterMap parseTransitionEvent
    (currentSize, if transitions.isEmpty then Option.none else Option.some transitions)


/-! ## Retrigger scenario (highlight_overlay.rs show / start_animation_loop) -/

/-- First `show` call: at t = 0, highlight duration 3 s. -/
def retriggerShow1 : OverlayState × TimeoutLoop :=
  overlayShow 0 100 100 AnimationStyle.default 3
    { isVisible := false, anim := AnimationState.default, cursorPosition := (0, 0) }

/-- Replacing `show` call while the first session is active: at t = 2,
highlight duration 3 s (so the new session should stay visible until
t = 5). -/
def retriggerShow2 : OverlayState × TimeoutLoop :=
  overlayShow 2 200 200 AnimationStyle.default 3 retriggerShow1.1

/-- A tick of the FIRST session's still-running timeout loop at t = 2.5,
after the replacing `show`. -/
def retriggerTickA1 : OverlayState × Bool :=
  animationTick retriggerShow1.2 (5 / 2) retriggerShow2.1

/-- The first session's loop ticking at t = 3, when the OLD duration has
expired. -/
def retriggerTickA2 : OverlayState × Bool :=
  animationTick retriggerShow1.2 3 retriggerTickA1.1


/-! ## Shake detector lemmas -/

theorem deltas_nonneg {l : List ℚ} (h : List.Chain' (· ≤ ·) l) :
    ∀ q ∈ deltas l, 0 ≤ q := by
  induction l with
  | nil => simp [deltas]
  | cons a l ih =>
    cases l with
    | nil => simp [deltas]
    | cons b t =>
      rw [List.chain'_cons] at h
      intro q hq
      rw [deltas] at hq
      rcases List.mem_cons.mp hq with hq | hq
      · simpa [hq] using h.1
      · exact ih h.2 q hq

theorem countFlips_eq_zero {l : List ℚ} (h : ∀ q ∈ l, 0 ≤ q) :
    countFlips l = 0 := by
  induction l with
  | nil => rfl
  | cons a l ih =>
    cases l with
    | nil => rfl
    | cons b t =>
      rw [countFlips, if_neg, ih]
      · intro q hq
        exact h q (List.mem_cons_of_mem a hq)
      · rintro (⟨-, ha⟩ | ⟨hb, -⟩)
        · exact absurd (h a (List.mem_cons_self a _)) (not_le.mpr ha)
        · exact absurd (h b (List.mem_cons_of_mem a (List.mem_cons_self b _)))
            (not_le.mpr hb)

theorem detectShake_eq_false_of_chain (d : ShakeDetector)
    (hchain : List.Chain' (· ≤ ·) (d.samples.map (·.x)))
    (hmin : 0 < d.minDirectionChanges) :
    detectShake d = false := by
  simp only [detectShake]
  split
  · rfl
  · split
    · rfl
    · rw [if_neg]
      rintro ⟨h1, -⟩
      rw [countFlips_eq_zero (deltas_nonneg hchain)] at h1
      omega

theorem feed_results_false (ps : List (ℚ × ℚ × ℚ)) :
    ∀ d : ShakeDetector,
      List.Chain' (· ≤ ·) (d.samples.map (·.x) ++ ps.map (·.1)) →
      0 < d.minDirectionChanges →
      ∀ b ∈ (feed d ps).2, b = false := by
  induction ps with
  | nil =>
    intro d _ _ b hb
    simp [feed] at hb
  | cons p ps ih =>
    intro d hchain hmin b hb
    have hpush : List.Chain' (· ≤ ·) ((d.samples.map (·.x) ++ [p.1]) ++ ps.map (·.1)) := by
      simpa [List.append_assoc] using hchain
    by_cases hrun : d.isRunning
    · -- running: the new sample is pushed, old samples may be evicted
      set d1 : ShakeDetector :=
        { d with samples := ((d.samples ++ [PositionSample.mk p.1 p.2.1 p.2.2]).dropWhile (fun s => p.2.2 - s.time > d.windowDuration)) } with hd1
      have hdw : List.Sublist
          ((d.samples ++ [PositionSample.mk p.1 p.2.1 p.2.2]).dropWhile
            (fun s => p.2.2 - s.time > d.windowDuration))
          (d.samples ++ [PositionSample.mk p.1 p.2.1 p.2.2]) :=
        List.dropWhile_sublist _
      have hsub : List.Sublist (d1.samples.map (·.x)) (d.samples.map (·.x) ++ [p.1]) := by
        have := hdw.map (fun s : PositionSample => s.x)
        simpa [hd1] using this
      have hchain1 : List.Chain' (· ≤ ·) (d1.samples.map (·.x) ++ ps.map (·.1)) :=
        hpush.sublist (hsub.append_right _)
      have hdet : detectShake d1 = false :=
        detectShake_eq_false_of_chain d1
          (hchain1.sublist (List.sublist_append_left _ _)) hmin
      have hrec : recordPosition d p.1 p.2.1 p.2.2 = (d1, false) := by
        rw [recordPosition, if_neg (by simp [hrun]), if_neg (by simp [hdet])]
      rw [feed, hrec] at hb
      rcases List.mem_cons.mp hb with hb | hb
      · exact hb
      · exact ih d1 hchain1 hmin b hb
    · -- not running: nothing changes
      have hrec : recordPosition d p.1 p.2.1 p.2.2 = (d, false) := by
        rw [recordPosition, if_pos (by simp [hrun])]
      have hchain' : List.Chain' (· ≤ ·) (d.samples.map (·.x) ++ ps.map (·.1)) :=
        hpush.sublist ((List.sublist_append_left _ _).append_right _)
      rw [feed, hrec] at hb
      rcases List.mem_cons.mp hb with hb | hb
      · exact hb
      · exact ih d hchain' hmin b hb
/-! ## Animation clock lemmas -/

theorem rustRem_div_eq_fract {e d : ℚ} (he : 0 ≤ e) (hd : 0 < d) :
    rustRem e d / d = Int.fract (e / d) := by
  have hd0 : d ≠ 0 := ne_of_gt hd
  rw [rustRem, rtrunc, if_pos (div_nonneg he hd.le), Int.fract]
  field_simp

theorem rawProgress_bounds {e d : ℚ} (he : 0 ≤ e) (hd : 0 < d) :
    0 ≤ rustRem e d / d ∧ rustRem e d / d < 1 := by
  rw [rustRem_div_eq_fract he hd]
  exact ⟨Int.fract_nonneg _, Int.fract_lt_one _⟩

theorem easing_apply_mem (e : Easing) {t : ℚ} (h0 : 0 ≤ t) (h1 : t ≤ 1) :
    0 ≤ e.apply t ∧ e.apply t ≤ 1 := by
  cases e <;> simp only [Easing.apply]
  · exact ⟨h0, h1⟩
  · constructor <;> nlinarith
  · constructor <;> nlinarith
  · split
    · constructor <;> nlinarith
    · constructor <;> nlinarith

theorem x11_progress_mem {e : ℚ} (style : AnimationStyle) (he : 0 ≤ e)
    (hd : 0 < style.duration) :
    0 ≤ x11CalculateAnimationProgress e style ∧
      x11CalculateAnimationProgress e style ≤ 1 := by
  rw [x11CalculateAnimationProgress, if_neg (not_le.mpr hd)]
  simp only
  have hraw := rawProgress_bounds he hd
  apply easing_apply_mem
  · split
    · split
      · linarith [hraw.2]
      · exact hraw.1
    · exact hraw.1
  · split
    · split
      · linarith [hraw.1]
      · linarith [hraw.2]
    · linarith [hraw.2]

theorem gtk_progress_mem (now t0 : ℚ) (a : AnimationState)
    (hst : a.startTime = Option.some t0) (he : 0 ≤ now - t0)
    (hd : 0 < a.style.duration) :
    0 ≤ (gtkUpdateAnimation now a).progress ∧
      (gtkUpdateAnimation now a).progress ≤ 1 := by
  obtain ⟨style, st, progress, rev⟩ := a
  simp only at hst hd
  subst hst
  have hraw := rawProgress_bounds he hd
  have h01 : ∀ t : ℚ, 0 ≤ t → t ≤ 1 →
      0 ≤ style.easing.apply t ∧ style.easing.apply t ≤ 1 :=
    fun t u v => easing_apply_mem _ u v
  cases harv : style.autoReverse with
  | false =>
    simp only [gtkUpdateAnimation, harv]
    rw [if_pos hd]
    simp only [Bool.false_eq_true, if_false]
    split
    · constructor <;> norm_num
    · simpa using h01 _ hraw.1 hraw.2.le
  | true =>
    simp only [gtkUpdateAnimation, harv]
    rw [if_pos hd]
    simp only [if_true]
    split
    · constructor <;> norm_num
    · simp only
      apply h01
      · split
        · linarith [hraw.2]
        · exact hraw.1
      · split
        · linarith [hraw.1]
        · linarith [hraw.2]

theorem x11_mirror (style : AnimationStyle) (x : ℚ)
    (har : style.autoReverse = true) (hd : 0 < style.duration)
    (hx0 : 0 < x) (hxd : x < style.duration) :
    x11CalculateAnimationProgress (style.duration + x) style =
      x11CalculateAnimationProgress (style.duration - x) style := by
  have hd0 : style.duration ≠ 0 := ne_of_gt hd
  have hq1 : (style.duration + x) / style.duration = 1 + x / style.duration := by
    field_simp
  have hq2 : (style.duration - x) / style.duration = 1 - x / style.duration := by
    field_simp
  have hxd1 : x / style.duration < 1 := (div_lt_one hd).mpr hxd
  have hxd0 : 0 < x / style.duration := div_pos hx0 hd
  have hfx : ⌊x / style.duration⌋ = 0 := Int.floor_eq_zero_iff.mpr ⟨hxd0.le, hxd1⟩
  have hf1 : ⌊(style.duration + x) / style.duration⌋ = 1 := by
    rw [hq1, show (1 : ℚ) + x / style.duration = x / style.duration + ((1 : ℤ) : ℚ) by
      push_cast; ring, Int.floor_add_int, hfx]
    norm_num
  have hf2 : ⌊(style.duration - x) / style.duration⌋ = 0 := by
    rw [hq2]
    exact Int.floor_eq_zero_iff.mpr ⟨by linarith, by linarith⟩
  have ht1 : rtrunc ((style.duration + x) / style.duration) = 1 := by
    rw [rtrunc, if_pos (by rw [hq1]; linarith), hf1]
  have ht2 : rtrunc ((style.duration - x) / style.duration) = 0 := by
    rw [rtrunc, if_pos (by rw [hq2]; linarith), hf2]
  have hr1 : rustRem (style.duration + x) style.duration = x := by
    rw [rustRem, ht1]; push_cast; ring
  have hr2 : rustRem (style.duration - x) style.duration = style.duration - x := by
    rw [rustRem, ht2]; push_cast; ring
  have ha1 : asU32 ((style.duration + x) / style.duration) = 1 := by
    rw [asU32, ht1]; norm_num
  have ha2 : asU32 ((style.duration - x) / style.duration) = 0 := by
    rw [asU32, ht2]; norm_num
  rw [x11CalculateAnimationProgress, x11CalculateAnimationProgress,
    if_neg (not_le.mpr hd), if_neg (not_le.mpr hd)]
  simp only [har, if_true, ha1, ha2, hr1, hr2]
  rw [if_neg (by norm_num : ¬(0 : ℕ) % 2 = 1)]
  congr 1
  rw [hq2]

theorem gtk_x11_agree (now t0 : ℚ) (a : AnimationState)
    (hst : a.startTime = Option.some t0) (hd : 0 < a.style.duration)
    (hrc : a.style.repeatCount = 0 ∨
      asU32 ((now - t0) / a.style.duration) < a.style.repeatCount) :
    (gtkUpdateAnimation now a).progress =
      x11CalculateAnimationProgress (now - t0) a.style := by
  obtain ⟨style, st, progress, rev⟩ := a
  simp only at hst hd hrc
  subst hst
  have hclamp : ¬(0 < style.repeatCount ∧
      style.repeatCount ≤ asU32 ((now - t0) / style.duration)) := by
    rcases hrc with h | h
    · rintro ⟨h1, -⟩; omega
    · rintro ⟨-, h2⟩; omega
  cases harv : style.autoReverse with
  | false =>
    simp only [gtkUpdateAnimation, harv, x11CalculateAnimationProgress]
    rw [if_pos hd, if_neg (not_le.mpr hd)]
    simp only [Bool.false_eq_true, if_false]
    rw [if_neg hclamp]
  | true =>
    simp only [gtkUpdateAnimation, harv, x11CalculateAnimationProgress]
    rw [if_pos hd, if_neg (not_le.mpr hd)]
    simp only [if_true]
    rw [if_neg hclamp]
/-! ## Sensitivity clamp lemmas -/

theorem rustClamp_mem (x : ℚ) : 0 ≤ rustClamp x 0 1 ∧ rustClamp x 0 1 ≤ 1 :=
  ⟨le_min (le_max_right x 0) (by norm_num), min_le_right _ _⟩

theorem start_sensitivity (d : ShakeDetector) : d.start.sensitivity = d.sensitivity := by
  rw [ShakeDetector.start]
  split <;> rfl

theorem recordPosition_sensitivity (d : ShakeDetector) (x y now : ℚ) :
    (recordPosition d x y now).1.sensitivity = d.sensitivity := by
  simp only [recordPosition]
  split
  · rfl
  · split <;> rfl

theorem runOps_sensitivity_mem (ops : List DetectorOp) :
    ∀ d : ShakeDetector, 0 ≤ d.sensitivity → d.sensitivity ≤ 1 →
      0 ≤ (runOps d ops).sensitivity ∧ (runOps d ops).sensitivity ≤ 1 := by
  induction ops with
  | nil => intro d h0 h1; exact ⟨h0, h1⟩
  | cons op ops ih =>
    intro d h0 h1
    have hs : 0 ≤ (applyOp d op).sensitivity ∧ (applyOp d op).sensitivity ≤ 1 := by
      cases op with
      | setSensitivity s => exact rustClamp_mem s
      | start => rw [applyOp, start_sensitivity]; exact ⟨h0, h1⟩
      | stop => exact ⟨h0, h1⟩
      | record x y now => rw [applyOp, recordPosition_sensitivity]; exact ⟨h0, h1⟩
    exact ih (applyOp d op) hs.1 hs.2

/-! ## Claim theorems -/

/-- C1, counterexample: with sensitivity 1.0, feeding the five samples
x = 0,100,0,100,0 at 50 ms intervals (a 200 ms span) reports NO detection on
any `record_position` call — in particular not on the final one.  The five
samples produce only 3 direction changes, below the required minimum of 4. -/
theorem c1_alternating_five_counterexample :
    (feed (ShakeDetector.new 1).start
      [(0, 0, 0), (100, 0, 1/20), (0, 0, 1/10), (100, 0, 3/20), (0, 0, 1/5)]).2 =
      [false, false, false, false, false] := by
  norm_num [feed, recordPosition, detectShake, deltas, countFlips, shakeThreshold,
    ShakeDetector.new, ShakeDetector.start, rustClamp, List.dropWhile]

/-- C1, amended: with sensitivity 1.0, feeding SIX samples alternating
x = 0,100,0,100,0,100 within a 200 ms span reports a detection exactly on
the final record call, and feeding any samples whose x coordinates are
monotonically increasing (in particular 5 samples over 200 ms) never
reports a detection on any call. -/
theorem c1_shake_detection_amended :
    ((feed (ShakeDetector.new 1).start
      [(0, 0, 0), (100, 0, 1/25), (0, 0, 2/25), (100, 0, 3/25), (0, 0, 4/25),
        (100, 0, 1/5)]).2 =
      [false, false, false, false, false, true]) ∧
    (∀ (s : ℚ) (ps : List (ℚ × ℚ × ℚ)),
      List.Chain' (fun p q => p.1 ≤ q.1) ps →
      ∀ b ∈ (feed (ShakeDetector.new s).start ps).2, b = false) := by
  constructor
  · norm_num [feed, recordPosition, detectShake, deltas, countFlips, shakeThreshold,
      ShakeDetector.new, ShakeDetector.start, rustClamp, List.dropWhile]
  · intro s ps hmono b hb
    have hsamp : (ShakeDetector.new s).start.samples = [] := by
      simp [ShakeDetector.new, ShakeDetector.start]
    refine feed_results_false ps (ShakeDetector.new s).start ?_ ?_ b hb
    · rw [hsamp]
      simpa [List.chain'_map] using hmono
    · simp [ShakeDetector.new, ShakeDetector.start]

/-- C1, witness for the amended theorem: the monotone half applied to five
concrete increasing samples over 200 ms. -/
theorem c1_shake_detection_amended_witness :
    (List.Chain' (fun p q : ℚ × ℚ × ℚ => p.1 ≤ q.1)
      [(0, 0, 0), (10, 0, 1/20), (20, 0, 1/10), (30, 0, 3/20), (40, 0, 1/5)]) ∧
    ∀ b ∈ (feed (ShakeDetector.new 1).start
      [(0, 0, 0), (10, 0, 1/20), (20, 0, 1/10), (30, 0, 3/20), (40, 0, 1/5)]).2,
      b = false :=
  ⟨by norm_num [List.chain'_cons, List.chain'_singleton],
   c1_shake_detection_amended.2 1 _
     (by norm_num [List.chain'_cons, List.chain'_singleton])⟩

/-- C2, code-bug evidence: `show` does replace the session — after the
second `show` the animation restarts at elapsed 0 (`start_time` = now,
`progress` = 0) — but the replaced session's still-running timeout loop is
never cancelled: it keeps ticking (Continue at t = 2.5) and at t = 3, when
the OLD session's duration expires, it hides the overlay and clears
`is_visible`, even though the new session (started at t = 2, duration 3 s)
still has 2 s remaining.  So the replaced session's remaining duration does
leak into the new one. -/
theorem c2_retrigger_overlay_hidden_early :
    retriggerShow2.1.anim.startTime = Option.some 2 ∧
    retriggerShow2.1.anim.progress = 0 ∧
    retriggerTickA1.2 = true ∧
    retriggerTickA1.1.isVisible = true ∧
    retriggerTickA2.1.isVisible = false ∧
    retriggerTickA2.2 = false ∧
    ((3 : ℚ) < 2 + 3) := by
  refine ⟨rfl, rfl, ?_, ?_, ?_, ?_, by norm_num⟩ <;>
    norm_num [retriggerShow1, retriggerShow2, retriggerTickA1, retriggerTickA2,
      overlayShow, animationTick, asU64, rtrunc, min_def]

/-- C3: for every elapsed ≥ 0 and every animation style with positive
duration, the computed animation progress lies in [0,1] — both in the X11
variant (reversing then easing) and in the GTK per-tick variant (reversing,
easing and repeat clamping). -/
theorem c3_progress_in_unit_interval :
    (∀ (style : AnimationStyle) (elapsed : ℚ), 0 ≤ elapsed → 0 < style.duration →
      0 ≤ x11CalculateAnimationProgress elapsed style ∧
        x11CalculateAnimationProgress elapsed style ≤ 1) ∧
    (∀ (now t0 : ℚ) (a : AnimationState), a.startTime = Option.some t0 →
      0 ≤ now - t0 → 0 < a.style.duration →
      0 ≤ (gtkUpdateAnimation now a).progress ∧
        (gtkUpdateAnimation now a).progress ≤ 1) :=
  ⟨fun style _ he hd => x11_progress_mem style he hd,
   fun now t0 a hst he hd => gtk_progress_mem now t0 a hst he hd⟩

/-- C3, witness: the default style at elapsed 1 in both variants. -/
theorem c3_progress_in_unit_interval_witness :
    ((0 : ℚ) ≤ 1 ∧ 0 < AnimationStyle.default.duration) ∧
    (0 ≤ x11CalculateAnimationProgress 1 AnimationStyle.default ∧
      x11CalculateAnimationProgress 1 AnimationStyle.default ≤ 1) ∧
    (0 ≤ (gtkUpdateAnimation 1
        { AnimationState.default with startTime := Option.some 0 }).progress ∧
      (gtkUpdateAnimation 1
        { AnimationState.default with startTime := Option.some 0 }).progress ≤ 1) :=
  ⟨⟨by norm_num, by norm_num [AnimationStyle.default]⟩,
   c3_progress_in_unit_interval.1 AnimationStyle.default 1 (by norm_num)
     (by norm_num [AnimationStyle.default]),
   c3_progress_in_unit_interval.2 1 0
     { AnimationState.default with startTime := Option.some 0 } rfl (by norm_num)
     (by norm_num [AnimationState.default, AnimationStyle.default])⟩

/-- C4, counterexample: in the GTK overlay variant the tick update with
duration 0 leaves the progress at its prior value 0.0 (the update is
skipped), so the computed progress is NOT 1.0 in every variant. -/
theorem c4_degenerate_counterexample :
    (gtkUpdateAnimation 1
      { style := { animationType := AnimationType.pulse, duration := 0,
                   easing := Easing.easeInOut, repeatCount := 3, autoReverse := true },
        startTime := Option.some 0, progress := 0, isReversing := false }).progress ≠ 1 := by
  norm_num [gtkUpdateAnimation]

/-- C4, amended: with duration ≤ 0 the X11 variant returns progress 1.0 for
every elapsed, while the GTK variant skips the whole update, leaving the
progress at its prior value (0.0 right after `show`). -/
theorem c4_degenerate_amended :
    (∀ (elapsed : ℚ) (style : AnimationStyle), style.duration ≤ 0 →
      x11CalculateAnimationProgress elapsed style = 1) ∧
    (∀ (now : ℚ) (a : AnimationState), a.style.duration ≤ 0 →
      (gtkUpdateAnimation now a).progress = a.progress) := by
  constructor
  · intro e style h
    rw [x11CalculateAnimationProgress, if_pos h]
  · intro now a h
    cases hst : a.startTime with
    | none => simp [gtkUpdateAnimation, hst]
    | some t0 =>
      simp only [gtkUpdateAnimation, hst]
      rw [if_neg (not_lt.mpr h)]

/-- C4, witness for the amended theorem: duration 0 in both variants. -/
theorem c4_degenerate_amended_witness :
    ((0 : ℚ) ≤ 0) ∧
    x11CalculateAnimationProgress 5
      { animationType := AnimationType.pulse, duration := 0,
        easing := Easing.easeInOut, repeatCount := 3, autoReverse := true } = 1 ∧
    (gtkUpdateAnimation 1
      { style := { animationType := AnimationType.pulse, duration := 0,
                   easing := Easing.easeInOut, repeatCount := 3, autoReverse := true },
        startTime := Option.some 0, progress := 0, isReversing := false }).progress = 0 :=
  ⟨le_refl 0,
   c4_degenerate_amended.1 5 _ (by norm_num),
   c4_degenerate_amended.2 1
     { style := { animationType := AnimationType.pulse, duration := 0,
                  easing := Easing.easeInOut, repeatCount := 3, autoReverse := true },
       startTime := Option.some 0, progress := 0, isReversing := false } (by norm_num)⟩

/-- C5: with the read offset at the end of the pre-existing content, a newly
appended line containing "switching to Office-PC" yields exactly one `Left`
event with peer name "Office-PC", and one containing "switching from
Office-PC" yields exactly one `Returned` event with peer name "Office-PC". -/
theorem c5_transition_parsing :
    (processNewEntries
        ("log start\n".toList ++ "12:00 INFO: switching to Office-PC\n".toList)
        "log start\n".toList.length =
      (("log start\n".toList ++ "12:00 INFO: switching to Office-PC\n".toList).length,
        Option.some [{ transitionType := TransitionType.left, screenName := "Office-PC" }])) ∧
    (processNewEntries
        ("log start\n".toList ++ "12:00 INFO: switching from Office-PC\n".toList)
        "log start\n".toList.length =
      (("log start\n".toList ++ "12:00 INFO: switching from Office-PC\n".toList).length,
        Option.some [{ transitionType := TransitionType.returned, screenName := "Office-PC" }])) := by
  constructor <;> decide

/-- C6: a modify notification never decreases the read offset; when the
current length is ≤ the recorded offset the notification is a no-op that
emits nothing and keeps the offset; and over two consecutive
append-and-notify cycles the second cycle parses exactly the freshly
appended bytes, so no previously delivered line is delivered again. -/
theorem c6_offset_monotone :
    (∀ (content : List Char) (off : ℕ), off ≤ (processNewEntries content off).1) ∧
    (∀ (content : List Char) (off : ℕ), content.length ≤ off →
      processNewEntries content off = (off, Option.none)) ∧
    (∀ (base app : List Char) (off : ℕ), off < base.length → 0 < app.length →
      (processNewEntries base off).1 = base.length ∧
      (processNewEntries (base ++ app) (processNewEntries base off).1).2.getD [] =
        (bufLines app).filterMap parseTransitionEvent ∧
      (processNewEntries (base ++ app) (processNewEntries base off).1).1 =
        base.length + app.length) := by
  refine ⟨?_, ?_, ?_⟩
  · intro content off
    simp only [processNewEntries]
    split
    · simp
    · next h => simpa using (not_le.mp h).le
  · intro content off h
    simp only [processNewEntries]
    rw [if_pos h]
  · intro base app off h1 h2
    have hb : (processNewEntries base off).1 = base.length := by
      simp only [processNewEntries]
      rw [if_neg (not_le.mpr h1)]
    have hlen : (base ++ app).length = base.length + app.length :=
      List.length_append _ _
    have hno : ¬((base ++ app).length ≤ base.length) := by
      rw [hlen]; omega
    refine ⟨hb, ?_, ?_⟩
    · rw [hb]
      simp only [processNewEntries]
      rw [if_neg hno, List.drop_left]
      split
      · next hemp =>
        simp only [Option.getD_none]
        exact (List.isEmpty_iff.mp hemp).symm
      · rfl
    · rw [hb]
      simp only [processNewEntries]
      rw [if_neg hno]
      exact hlen

/-- C6, witness: the no-op case and a concrete two-cycle append. -/
theorem c6_offset_monotone_witness :
    ("a\n".toList.length ≤ 5 ∧ processNewEntries "a\n".toList 5 = (5, Option.none)) ∧
    ((0 < "a\n".toList.length ∧ 0 < "switching to X\n".toList.length) ∧
      (processNewEntries "a\n".toList 0).1 = "a\n".toList.length ∧
      (processNewEntries ("a\n".toList ++ "switching to X\n".toList)
          (processNewEntries "a\n".toList 0).1).2.getD [] =
        (bufLines "switching to X\n".toList).filterMap parseTransitionEvent ∧
      (processNewEntries ("a\n".toList ++ "switching to X\n".toList)
          (processNewEntries "a\n".toList 0).1).1 =
        "a\n".toList.length + "switching to X\n".toList.length) :=
  ⟨⟨by decide, c6_offset_monotone.2.1 "a\n".toList 5 (by decide)⟩,
   ⟨by decide, c6_offset_monotone.2.2 "a\n".toList "switching to X\n".toList 0
     (by decide) (by decide)⟩⟩

/-- C7: with auto-reverse on and 0 < x < duration, the X11 progress at
elapsed = duration + x equals the progress at elapsed = duration - x: the
second cycle mirrors the first, with the same easing applied to both. -/
theorem c7_auto_reverse_mirror :
    ∀ (style : AnimationStyle) (x : ℚ), style.autoReverse = true →
      0 < style.duration → 0 < x → x < style.duration →
      x11CalculateAnimationProgress (style.duration + x) style =
        x11CalculateAnimationProgress (style.duration - x) style :=
  fun style x har hd hx0 hxd => x11_mirror style x har hd hx0 hxd

/-- C7, witness: the default style (duration 0.8, auto-reverse on) at
x = 1/2. -/
theorem c7_auto_reverse_mirror_witness :
    (AnimationStyle.default.autoReverse = true ∧ 0 < AnimationStyle.default.duration ∧
      (0 : ℚ) < 1/2 ∧ (1 : ℚ)/2 < AnimationStyle.default.duration) ∧
    x11CalculateAnimationProgress (AnimationStyle.default.duration + 1/2)
        AnimationStyle.default =
      x11CalculateAnimationProgress (AnimationStyle.default.duration - 1/2)
        AnimationStyle.default :=
  ⟨⟨rfl, by norm_num [AnimationStyle.default], by norm_num,
    by norm_num [AnimationStyle.default]⟩,
   c7_auto_reverse_mirror AnimationStyle.default (1/2) rfl
     (by norm_num [AnimationStyle.default]) (by norm_num)
     (by norm_num [AnimationStyle.default])⟩

/-- C8: construction and `set_sensitivity` clamp their argument, every other
operation preserves the stored sensitivity, so after any sequence of
operations the sensitivity lies in [0,1] and the detection threshold
900 - sensitivity * 600 lies in [300, 900]. -/
theorem c8_sensitivity_clamped :
    ∀ (s : ℚ) (ops : List DetectorOp),
      0 ≤ (runOps (ShakeDetector.new s) ops).sensitivity ∧
      (runOps (ShakeDetector.new s) ops).sensitivity ≤ 1 ∧
      300 ≤ shakeThreshold (runOps (ShakeDetector.new s) ops) ∧
      shakeThreshold (runOps (ShakeDetector.new s) ops) ≤ 900 := by
  intro s ops
  have h := runOps_sensitivity_mem ops (ShakeDetector.new s)
    (rustClamp_mem s).1 (rustClamp_mem s).2
  refine ⟨h.1, h.2, ?_, ?_⟩ <;> simp only [shakeThreshold] <;> nlinarith [h.1, h.2]

/-- C9, counterexample: at elapsed 3/2 with duration 1, repeat count 1,
linear easing and no auto-reverse, the GTK per-tick progress is 1.0 (the
repeat clamp engaged) while the X11 progress is 1/2 (no clamp exists
there): the two platform variants disagree. -/
theorem c9_variants_counterexample :
    (gtkUpdateAnimation (3/2)
      { style := { animationType := AnimationType.none, duration := 1,
                   easing := Easing.linear, repeatCount := 1, autoReverse := false },
        startTime := Option.some 0, progress := 0, isReversing := false }).progress ≠
      x11CalculateAnimationProgress ((3/2 : ℚ) - 0)
        { animationType := AnimationType.none, duration := 1, easing := Easing.linear,
          repeatCount := 1, autoReverse := false } := by
  norm_num [gtkUpdateAnimation, x11CalculateAnimationProgress, rustRem, rtrunc,
    asU32, Easing.apply, min_def]

/-- C9, amended: the two variants agree whenever the duration is positive
and the repeat clamp is not engaged (repeat count 0, or cycle index below
the repeat count); they diverge when duration ≤ 0 or once the clamp
engages. -/
theorem c9_variants_agree_amended :
    ∀ (now t0 : ℚ) (a : AnimationState), a.startTime = Option.some t0 →
      0 < a.style.duration →
      (a.style.repeatCount = 0 ∨
        asU32 ((now - t0) / a.style.duration) < a.style.repeatCount) →
      (gtkUpdateAnimation now a).progress =
        x11CalculateAnimationProgress (now - t0) a.style :=
  fun now t0 a hst hd hrc => gtk_x11_agree now t0 a hst hd hrc

/-- C9, witness for the amended theorem: the default style one second in. -/
theorem c9_variants_agree_amended_witness :
    (0 < AnimationState.default.style.duration ∧
      asU32 (((1 : ℚ) - 0) / AnimationState.default.style.duration) <
        AnimationState.default.style.repeatCount) ∧
    (gtkUpdateAnimation 1
        { AnimationState.default with startTime := Option.some 0 }).progress =
      x11CalculateAnimationProgress ((1 : ℚ) - 0)
        { AnimationState.default with startTime := Option.some 0 }.style :=
  ⟨⟨by norm_num [AnimationState.default, AnimationStyle.default],
    by norm_num [AnimationState.default, AnimationStyle.default, asU32, rtrunc, min_def]⟩,
   c9_variants_agree_amended 1 0
     { AnimationState.default with startTime := Option.some 0 } rfl
     (by norm_num [AnimationState.default, AnimationStyle.default])
     (Or.inr (by norm_num [AnimationState.default, AnimationStyle.default, asU32,
       rtrunc, min_def]))⟩

/-- C10, counterexample: the line "Switching to Office-PC -> Office-PC" has
a trigger phrase that is not entirely lowercase, yet the emitted event's
peer name is "Office-PC" (extracted by the lowercase "-> " pattern), not
the sentinel "remote". -/
theorem c10_case_sensitivity_counterexample :
    parseTransitionEvent "Switching to Office-PC -> Office-PC".toList =
      Option.some { transitionType := TransitionType.left, screenName := "Office-PC" } ∧
    parseTransitionEvent "Switching to Office-PC -> Office-PC".toList ≠
      Option.some { transitionType := TransitionType.left, screenName := "remote" } := by
  constructor <;> decide

/-- C10, amended: classification is case-insensitive (the line is
lowercased) while peer extraction runs lowercase patterns on the original
line; a line with a non-lowercase trigger phrase still emits an event, and
its peer name falls back to "remote" exactly when no lowercase extraction
pattern matches anywhere in the line: "Switching to Office-PC" yields
"remote", while "Switching to Office-PC -> Office-PC" yields "Office-PC"
via the "-> " pattern. -/
theorem c10_case_sensitivity_amended :
    parseTransitionEvent "Switching to Office-PC".toList =
      Option.some { transitionType := TransitionType.left, screenName := "remote" } ∧
    parseTransitionEvent "Switching to Office-PC -> Office-PC".toList =
      Option.some { transitionType := TransitionType.left, screenName := "Office-PC" } := by
  constructor <;> decide
